import Mathlib

/-!
Verification of the face-matching pipeline of the Attendance-Management-system
repository (Flask app).  The relevant source units are:

* `app/utils/face_recognition.py` — `FaceRecognition.embedding_to_json`,
  `FaceRecognition.json_to_embedding`, `FaceRecognition.compare_faces`,
  `FaceRecognition.detect_all_faces`;
* `app/routes/images.py` — the `upload` view: face detection, greedy
  best-match-per-face matching against the teacher's roster, and the
  present/absent attendance reconciliation writes.

Modelling conventions (shallow embedding):

* Embedding vectors are `List ℚ`.  The Python values are numpy `float32`
  arrays; `tolist()` widens exactly to Python floats, `np.array(·, float32)`
  maps those values back exactly, and `json.dumps`/`json.loads` round-trip
  floats exactly, so at the value level all these casts are identities on
  the rationals that stand for the stored floats.
* The one genuinely non-rational numeric step, the cosine kernel
  `np.dot(a,b)/(np.linalg.norm(a)*np.linalg.norm(b))` (a square root), is
  abstracted as an explicit parameter `simf : List ℚ → List ℚ → ℚ` that is
  only ever applied to equal-length vectors.  Every claim below concerns the
  control flow, the error handling and the order comparisons on its output,
  never the numeric value of the kernel itself.
* Python exceptions are modelled with `Except`: a raised exception is
  `.error`, the `try/except` handlers of the source are explicit `match`es
  on the `Except` value.
* Database state (the `Attendance` table restricted to one teacher's
  students) is a `List AttRecord`; `Attendance.query.filter_by(...).first()`
  is a first-match scan, `db.session.add` is an append.
-/

/-- A face embedding once decoded: an ordered sequence of reals
(`numpy.ndarray` of `float32` in the source), modelled as `List ℚ`. -/
abbrev Emb := List ℚ

/-- The value stored in `Student.face_embedding` or passed to
`json_to_embedding` / `compare_faces`: either a Python list / numpy array
(`jlist`), or a JSON text (`jtext`).  A text is modelled by what
`json.loads` does with it: `jtext (some v)` is text that decodes to the
float list `v`, `jtext none` is undecodable text (`json.loads` raises). -/
inductive EmbJson where
  | jlist (v : Emb)
  | jtext (t : Option Emb)
deriving DecidableEq

/-- Exceptions that can be raised inside the embedding store
(`ValueError` from `json.loads` on undecodable text; `ValueError` from
`np.dot` on 1-D arrays of different lengths). -/
inductive CompareError where
  | jsonDecode
  | dimMismatch
deriving DecidableEq

/-- `FaceRecognition.json_to_embedding` (face_recognition.py:204-220).
`None` input returns `None`; a string is `json.loads`-decoded (raising on
undecodable text); the result becomes a numpy array (exact on values that
came from `float32`, hence the identity here). -/
def json_to_embedding : Option EmbJson → Except CompareError (Option Emb)
  | none => .ok none
  | some (.jlist v) => .ok (some v)
  | some (.jtext (some v)) => .ok (some v)
  | some (.jtext none) => .error .jsonDecode

/-- `FaceRecognition.embedding_to_json` (face_recognition.py:190-202):
`None` passes through, otherwise `embedding.tolist()`, which is exact
(identity) at the value level.  Note: an *empty* array simply yields the
empty list; there is no emptiness check and no error path here. -/
def embedding_to_json : Option Emb → Option Emb
  | none => none
  | some v => some v

/-- The storage step wrapped around `embedding_to_json` in
`app/routes/students.py:226`: `json.dumps(face_rec.embedding_to_json(e))`.
The Python stdlib guarantees `json.loads(json.dumps(l)) == l` for a list of
floats (float `repr` round-trips), so the produced text is modelled by its
decoded value. -/
def jsonDumps (l : Emb) : EmbJson := .jtext (some l)

/-- The body of the `try` block of `FaceRecognition.compare_faces`
(face_recognition.py:496-528): convert list/str inputs via
`json_to_embedding` (raising on undecodable text), return `(False, 0.0)` if
either side is `None`, compute `np.dot` (raising a `ValueError` when the
1-D lengths differ), divide by the norms (the abstract kernel `simf`), and
compare against the threshold. -/
def compare_faces_core (simf : Emb → Emb → ℚ) (e1 e2 : Option EmbJson)
    (threshold : ℚ) : Except CompareError (Bool × ℚ) := do
  let v1 ← json_to_embedding e1
  let v2 ← json_to_embedding e2
  match v1, v2 with
  | none, _ => .ok (false, 0)
  | _, none => .ok (false, 0)
  | some a, some b =>
    if a.length ≠ b.length then
      .error .dimMismatch
    else
      let sim := simf a b
      .ok (decide (sim ≥ threshold), sim)

/-- `FaceRecognition.compare_faces` as seen by callers: the `try` body with
its all-catching `except` handler, which logs and returns `(False, 0.0)` on
any raised exception.  The function is total: no exception escapes. -/
def compare_faces (simf : Emb → Emb → ℚ) (e1 e2 : Option EmbJson)
    (threshold : ℚ) : Bool × ℚ :=
  match compare_faces_core simf e1 e2 threshold with
  | .ok r => r
  | .error _ => (false, 0)

/-- A concrete kernel used for witnesses: the plain rational dot product
(the cosine numerator; equal to the cosine on unit-norm inputs). -/
def dotQ (a b : Emb) : ℚ := (List.zipWith (· * ·) a b).sum

-- ## The group-photo matcher (app/routes/images.py, `upload`)

/-- A row of the `Student` table as used by the matcher: id, display name,
roll number, and the stored serialized face embedding (`db.Text`, nullable). -/
structure Student where
  id : ℕ
  name : String
  roll_number : String
  face_embedding : Option EmbJson
deriving DecidableEq

/-- One detected face as produced by `detect_all_faces`: `(embedding,
face_image, bbox, face_index)`.  The cropped pixel data `face_image` is
never consulted by the matcher and is omitted. -/
structure Face where
  embedding : Emb
  bbox : List ℤ
  face_idx : ℕ
deriving DecidableEq

/-- The `best_match` dict built at images.py:166-173. -/
structure MatchResult where
  face_index : ℕ
  student_id : ℕ
  student_name : String
  roll_number : String
  similarity : ℚ
  bbox : List ℤ
deriving DecidableEq

def mkBestMatch (f : Face) (s : Student) (sim : ℚ) : MatchResult :=
  ⟨f.face_idx, s.id, s.name, s.roll_number, sim, f.bbox⟩

/-- The running state of the inner loop over `students_with_faces`
(images.py:154-177).  The source keeps `best_match`, `best_student` and
`best_similarity`; `best_match` and `best_student` are always assigned
together, so they are coupled in one `Option`. -/
structure BestState where
  best : Option (MatchResult × Student)
  best_similarity : ℚ
deriving DecidableEq

/-- One student comparison of the inner loop (images.py:160-165):
`json_to_embedding(student.face_embedding)` — raising on undecodable text,
*outside* `compare_faces`'s handler — then
`compare_faces(embedding, student_embedding, threshold=0.0)`, of which only
the similarity component is used. -/
def simOf (simf : Emb → Emb → ℚ) (f : Face) (s : Student) :
    Except CompareError ℚ := do
  let se ← json_to_embedding s.face_embedding
  pure (compare_faces simf (some (.jlist f.embedding)) (se.map EmbJson.jlist) 0).2

/-- The body of the inner loop: update the running best only on a strictly
greater similarity (`if similarity > best_similarity`, images.py:166). -/
def bestStep (simf : Emb → Emb → ℚ) (f : Face) (st : BestState)
    (s : Student) : Except CompareError BestState := do
  let sim ← simOf simf f s
  if sim > st.best_similarity then
    pure ⟨some (mkBestMatch f s sim, s), sim⟩
  else
    pure st

/-- The inner `for student in students_with_faces` loop run to completion
(a raised exception aborts the loop and propagates). -/
def bestForAux (simf : Emb → Emb → ℚ) (f : Face) (st : BestState) :
    List Student → Except CompareError BestState
  | [] => .ok st
  | s :: rest =>
    match bestStep simf f st s with
    | .error e => .error e
    | .ok st' => bestForAux simf f st' rest

/-- Best roster match for one detected face, starting from
`best_match = None`, `best_similarity = 0.0` (images.py:154-156). -/
def bestFor (simf : Emb → Emb → ℚ) (students : List Student) (f : Face) :
    Except CompareError BestState :=
  bestForAux simf f ⟨none, 0⟩ students

/-- The accumulators mutated by the outer per-face loop:
`matched_students` (a Python `set`, modelled as a duplicate-free list in
insertion order), `face_recognition_results['matches']` and
`face_recognition_results['students_matched']`. -/
structure MatchAccum where
  matched_students : List ℕ
  matchList : List MatchResult
  students_matched : ℕ
deriving DecidableEq

/-- `matched_students.add(id)`: inserting an element already present
leaves the set unchanged. -/
def addToSet (s : List ℕ) (x : ℕ) : List ℕ := if x ∈ s then s else s ++ [x]

/-- End of one iteration of the per-face loop (images.py:179-183):
`if best_match and best_similarity >= 0.6`, record the match.  A non-`None`
`best_match` dict is truthy in Python.  The threshold `0.6` is written
`mkRat 6 10` (the same rational) so that concrete runs of the matcher are
kernel-computable. -/
def applyBest (acc : MatchAccum) (st : BestState) : MatchAccum :=
  match st.best with
  | some (m, s) =>
    if st.best_similarity ≥ mkRat 6 10 then
      ⟨addToSet acc.matched_students s.id, acc.matchList ++ [m],
        acc.students_matched + 1⟩
    else acc
  | none => acc

/-- The outer `for embedding, face_image, bbox, face_idx in detected_faces`
loop (images.py:151-183).  An exception raised while processing a face
aborts the loop; the accumulator built from the already completed faces is
returned alongside the error, because the source mutates
`face_recognition_results` in place. -/
def matchFaces (simf : Emb → Emb → ℚ) (students : List Student) :
    List Face → MatchAccum → Except (CompareError × MatchAccum) MatchAccum
  | [], acc => .ok acc
  | f :: rest, acc =>
    match bestFor simf students f with
    | .error e => .error (e, acc)
    | .ok st => matchFaces simf students rest (applyBest acc st)

-- ## Attendance reconciliation (images.py:185-243)

/-- One row of the `Attendance` table: `(student_id, date, status,
marked_by, last_modified)`; `status = true` is present.  Dates and
timestamps are abstract naturals. -/
structure AttRecord where
  student_id : ℕ
  date : ℕ
  status : Bool
  marked_by : ℕ
  last_modified : ℕ
deriving DecidableEq

/-- `Attendance.query.filter_by(student_id=sid, date=d).first()`:
first-match scan over the table. -/
def findAtt : List AttRecord → ℕ → ℕ → Option AttRecord
  | [], _, _ => none
  | r :: rest, sid, d =>
    if r.student_id = sid ∧ r.date = d then some r else findAtt rest sid d

/-- Mutating the ORM object returned by `.first()`: update the status and
`last_modified` of the first record matching `(sid, d)`. -/
def updateFirstStatus (sid d : ℕ) (newStatus : Bool) (now : ℕ) :
    List AttRecord → List AttRecord
  | [] => []
  | r :: rest =>
    if r.student_id = sid ∧ r.date = d then
      { r with status := newStatus, last_modified := now } :: rest
    else
      r :: updateFirstStatus sid d newStatus now rest

/-- Present-marking for one student id (images.py:186-210): update an
existing record to present only if it is not already present, else create
a new present record; returns the new table and the number of writes
counted into `attendance_marked`. -/
def markPresentOne (today now teacher sid : ℕ) (db : List AttRecord) :
    List AttRecord × ℕ :=
  match findAtt db sid today with
  | some r =>
    if r.status = false then (updateFirstStatus sid today true now db, 1)
    else (db, 0)
  | none => (db ++ [⟨sid, today, true, teacher, now⟩], 1)

/-- Absent-marking for one student id (images.py:217-241): update an
existing record to absent only if it is currently present, else create a
new absent record; returns the table and the writes counted into
`absent_marked`. -/
def markAbsentOne (today now teacher sid : ℕ) (db : List AttRecord) :
    List AttRecord × ℕ :=
  match findAtt db sid today with
  | some r =>
    if r.status = true then (updateFirstStatus sid today false now db, 1)
    else (db, 0)
  | none => (db ++ [⟨sid, today, false, teacher, now⟩], 1)

/-- `for student_id in matched_students` (images.py:186). -/
def markPresentLoop (today now teacher : ℕ) :
    List ℕ → List AttRecord → List AttRecord × ℕ
  | [], db => (db, 0)
  | sid :: rest, db =>
    let p := markPresentOne today now teacher sid db
    let q := markPresentLoop today now teacher rest p.1
    (q.1, p.2 + q.2)

/-- `for student_id in unmatched_student_ids` (images.py:217). -/
def markAbsentLoop (today now teacher : ℕ) :
    List ℕ → List AttRecord → List AttRecord × ℕ
  | [], db => (db, 0)
  | sid :: rest, db =>
    let p := markAbsentOne today now teacher sid db
    let q := markAbsentLoop today now teacher rest p.1
    (q.1, p.2 + q.2)

/-- Result of one reconciliation pass: the new attendance table, the
number of present-writes, and the number of absent-writes. -/
structure ReconcileOut where
  db : List AttRecord
  present_writes : ℕ
  absent_writes : ℕ
deriving DecidableEq

/-- The full reconciliation of one upload (images.py:185-243): mark every
id of `present` present, then every id of `absent` absent. -/
def reconcile (present absent : List ℕ) (today now teacher : ℕ)
    (db : List AttRecord) : ReconcileOut :=
  let p := markPresentLoop today now teacher present db
  let a := markAbsentLoop today now teacher absent p.1
  ⟨a.1, p.2, a.2⟩

-- ## Detection boundary and the upload flow

/-- A model-loading failure (`ImportError` / `RuntimeError` re-raised by
`detect_all_faces`, face_recognition.py:315-319). -/
inductive DetectError where
  | unavailable (msg : String)
deriving DecidableEq

/-- What the external detection collaborator did for one image: the model
could not load, the image file could not be read, or the model returned a
list of (already shape-validated) faces. -/
inductive RawDetection where
  | unavailable (msg : String)
  | unreadableImage
  | faces (fs : List Face)
deriving DecidableEq

/-- `FaceRecognition.detect_all_faces` (face_recognition.py:249-326):
model-loading errors are re-raised; an unreadable image raises a
`ValueError` that the function's own generic handler converts to an empty
result; otherwise the detected faces are returned (zero faces included).
The per-face numpy shape checks apply to raw model output and are part of
the collaborator boundary here. -/
def detect_all_faces : RawDetection → Except DetectError (List Face)
  | .unavailable msg => .error (.unavailable msg)
  | .unreadableImage => .ok []
  | .faces fs => .ok fs

/-- The `face_recognition_results` dict of the upload view. -/
structure FRResults where
  faces_detected : ℕ
  students_matched : ℕ
  attendance_marked : ℕ
  absent_marked : ℕ
  matchList : List MatchResult
  error : Option String
deriving DecidableEq

/-- Observable outcome of the face-recognition phase of one upload:
the results dict, the attendance table afterwards, the ids actually marked
present / absent, and whether the `ImageUpload` record is created. -/
structure UploadOutcome where
  results : FRResults
  db : List AttRecord
  present_ids : List ℕ
  absent_ids : List ℕ
  upload_recorded : Bool
deriving DecidableEq

/-- The `try/except` around `detect_all_faces` in the upload view
(images.py:121-142): a raised `ImportError`/`RuntimeError` does not fail
the upload; `detected_faces` becomes `[]` and
`face_recognition_results['error']` is set. -/
def handleDetect : Except DetectError (List Face) → List Face × Option String
  | .ok fs => (fs, none)
  | .error (.unavailable msg) =>
      ([], some ("Face recognition model failed to load: " ++ msg))

/-- The face-recognition phase of the `upload` view (images.py:121-270):
detection with its handlers, the guards `if len(detected_faces) > 0` and
`if students_with_faces`, the per-face matching loop, the present/absent
reconciliation, and the unconditional creation of the `ImageUpload` record
afterwards.  A mid-matching exception (undecodable stored embedding) is
caught by the outer `except face_error` handler: no attendance is written,
but the results mutated so far are kept and the upload is still recorded. -/
def uploadFaceRecognition (simf : Emb → Emb → ℚ)
    (teacher_students : List Student) (det : Except DetectError (List Face))
    (today now teacher : ℕ) (db : List AttRecord) : UploadOutcome :=
  let d := handleDetect det
  let detected_faces := d.1
  let base : FRResults := ⟨detected_faces.length, 0, 0, 0, [], d.2⟩
  if detected_faces.length > 0 then
    let students_with_faces :=
      teacher_students.filter fun s => s.face_embedding.isSome
    if students_with_faces.isEmpty then
      ⟨base, db, [], [], true⟩
    else
      match matchFaces simf students_with_faces detected_faces ⟨[], [], 0⟩ with
      | .error ea =>
        ⟨{ base with students_matched := ea.2.students_matched,
                     matchList := ea.2.matchList }, db, [], [], true⟩
      | .ok acc =>
        let present := acc.matched_students
        let all_student_ids := students_with_faces.map fun s => s.id
        let absent := all_student_ids.filter fun sid => ¬ sid ∈ present
        let r := reconcile present absent today now teacher db
        ⟨{ base with students_matched := acc.students_matched,
                     attendance_marked := r.present_writes + r.absent_writes,
                     absent_marked := r.absent_writes,
                     matchList := acc.matchList },
          r.db, present, absent, true⟩
  else
    ⟨base, db, [], [], true⟩

-- ## Theorems: embedding store (C6, C8, C9, C10 definitions end here)

/-- **C6** — For every non-empty embedding vector `v`, serializing `v`
(`embedding_to_json` then `json.dumps`, as in students.py:226) and
deserializing the stored text with `json_to_embedding` yields `v` back
exactly (hence within any floating-point tolerance). -/
theorem serialize_deserialize_roundtrip (v l : Emb) (_hne : v ≠ [])
    (hser : embedding_to_json (some v) = some l) :
    json_to_embedding (some (jsonDumps l)) = .ok (some v) := by
  cases hser
  rfl

/-- Witness for C6 at the concrete vector `[1/2, 3, 0]`. -/
theorem serialize_deserialize_roundtrip_witness :
    json_to_embedding (some (jsonDumps [1/2, 3, 0])) = .ok (some [1/2, 3, 0]) :=
  serialize_deserialize_roundtrip [1/2, 3, 0] [1/2, 3, 0] (by decide) rfl

/-- **C8, counterexample** — the claim says that on vectors of different
lengths the similarity operation fails with a `DimensionMismatchError`
rather than returning a score.  On the concrete mismatched pair
`[1]` / `[1, 2]`, `compare_faces` does *not* fail: it returns the score
pair `(False, 0.0)` (the internal `ValueError` from `np.dot` is swallowed
by the function's own `except` handler). -/
theorem compare_faces_mismatch_returns :
    compare_faces dotQ (some (.jlist [1])) (some (.jlist [1, 2])) 0.6
      = (false, 0) := by
  rfl

/-- **C8, amended** — on vectors of different lengths the *internal* dot
product raises (`compare_faces_core` errs with a dimension mismatch), but
`compare_faces` catches every exception and returns `(False, 0.0)`; no
error propagates to the caller. -/
theorem compare_faces_dim_mismatch (simf : Emb → Emb → ℚ) (a b : Emb)
    (t : ℚ) (h : a.length ≠ b.length) :
    compare_faces_core simf (some (.jlist a)) (some (.jlist b)) t
        = .error .dimMismatch
      ∧ compare_faces simf (some (.jlist a)) (some (.jlist b)) t
        = (false, 0) := by
  have hcore : compare_faces_core simf (some (.jlist a)) (some (.jlist b)) t
      = .error .dimMismatch := by
    simp [compare_faces_core, json_to_embedding, bind, Except.bind, h]
  exact ⟨hcore, by simp [compare_faces, hcore]⟩

/-- Witness for the amended C8 at `[1]` / `[1, 2]`. -/
theorem compare_faces_dim_mismatch_witness :
    compare_faces_core dotQ (some (.jlist [1])) (some (.jlist [1, 2])) 0.6
        = .error .dimMismatch
      ∧ compare_faces dotQ (some (.jlist [1])) (some (.jlist [1, 2])) 0.6
        = (false, 0) :=
  compare_faces_dim_mismatch dotQ [1] [1, 2] 0.6 (by decide)

/-- **C9, counterexample** — the claim says serializing an empty vector
fails with `InvalidVectorError`.  It does not: `embedding_to_json` on the
empty array is just `tolist()`, which returns the empty list, and the
stored text deserializes back to the empty vector. -/
theorem embedding_to_json_empty_ok :
    embedding_to_json (some []) = some []
      ∧ json_to_embedding (some (jsonDumps [])) = .ok (some []) := by
  exact ⟨rfl, rfl⟩

/-- **C9, amended** — serialization never fails: `embedding_to_json` is
total, maps any vector (the empty one included) to its float list, and maps
only `None` to `None`. -/
theorem embedding_to_json_total (v : Emb) :
    embedding_to_json (some v) = some v ∧ embedding_to_json none = none :=
  ⟨rfl, rfl⟩

-- ## Reconciliation lemmas

/-- A record for `(sid, today)` exists and is marked with status `b`. -/
def hasStatus (db : List AttRecord) (sid today : ℕ) (b : Bool) : Prop :=
  ∃ r, findAtt db sid today = some r ∧ r.status = b

lemma findAtt_updateFirstStatus_self (sid d : ℕ) (b : Bool) (now : ℕ) :
    ∀ db : List AttRecord,
      findAtt (updateFirstStatus sid d b now db) sid d
        = (findAtt db sid d).map fun r => { r with status := b, last_modified := now } := by
  intro db
  induction db with
  | nil => rfl
  | cons r rest ih =>
    by_cases h : r.student_id = sid ∧ r.date = d
    · simp [updateFirstStatus, findAtt, h]
    · simp [updateFirstStatus, findAtt, h, ih]

lemma findAtt_updateFirstStatus_other (sid d : ℕ) (b : Bool) (now : ℕ)
    (sid' d' : ℕ) (hne : ¬ (sid' = sid ∧ d' = d)) :
    ∀ db : List AttRecord,
      findAtt (updateFirstStatus sid d b now db) sid' d' = findAtt db sid' d' := by
  intro db
  induction db with
  | nil => rfl
  | cons r rest ih =>
    by_cases h : r.student_id = sid ∧ r.date = d
    · have hr : ¬ (r.student_id = sid' ∧ r.date = d') := by
        rintro ⟨h1, h2⟩
        exact hne ⟨by rw [← h1, h.1], by rw [← h2, h.2]⟩
      have hcond : ¬ (sid = sid' ∧ d = d') := fun hc => hne ⟨hc.1.symm, hc.2.symm⟩
      simp [updateFirstStatus, findAtt, h, hr, hcond]
    · by_cases hr : r.student_id = sid' ∧ r.date = d'
      · have hcond : ¬ (sid' = sid ∧ d' = d) := hne
        simp [updateFirstStatus, findAtt, h, hr, hcond]
      · simp [updateFirstStatus, findAtt, h, hr, ih]

lemma findAtt_append_one (x : AttRecord) (sid d : ℕ) :
    ∀ db : List AttRecord,
      findAtt (db ++ [x]) sid d
        = match findAtt db sid d with
          | some r => some r
          | none => if x.student_id = sid ∧ x.date = d then some x else none := by
  intro db
  induction db with
  | nil => rfl
  | cons r rest ih =>
    by_cases h : r.student_id = sid ∧ r.date = d
    · simp [findAtt, h]
    · simp [findAtt, h, ih]

lemma markPresentOne_hasStatus (today now teacher sid : ℕ) (db : List AttRecord) :
    hasStatus (markPresentOne today now teacher sid db).1 sid today true := by
  unfold markPresentOne
  cases h : findAtt db sid today with
  | some r =>
    by_cases hr : r.status = false
    · refine ⟨{ r with status := true, last_modified := now }, ?_, rfl⟩
      simp [hr, findAtt_updateFirstStatus_self, h]
    · exact ⟨r, by simp [hr, h], by simpa using hr⟩
  | none =>
    refine ⟨⟨sid, today, true, teacher, now⟩, ?_, rfl⟩
    simp [findAtt_append_one, h]

lemma markAbsentOne_hasStatus (today now teacher sid : ℕ) (db : List AttRecord) :
    hasStatus (markAbsentOne today now teacher sid db).1 sid today false := by
  unfold markAbsentOne
  cases h : findAtt db sid today with
  | some r =>
    by_cases hr : r.status = true
    · refine ⟨{ r with status := false, last_modified := now }, ?_, rfl⟩
      simp [hr, findAtt_updateFirstStatus_self, h]
    · exact ⟨r, by simp [hr, h], by simpa using hr⟩
  | none =>
    refine ⟨⟨sid, today, false, teacher, now⟩, ?_, rfl⟩
    simp [findAtt_append_one, h]

lemma markPresentOne_other (today now teacher sid : ℕ) (db : List AttRecord)
    (sid' : ℕ) (hne : sid' ≠ sid) :
    findAtt (markPresentOne today now teacher sid db).1 sid' today
      = findAtt db sid' today := by
  unfold markPresentOne
  cases h : findAtt db sid today with
  | some r =>
    by_cases hr : r.status = false
    · simp [hr, findAtt_updateFirstStatus_other sid today true now sid' today
        (by rintro ⟨h1, _⟩; exact hne h1)]
    · simp [hr]
  | none =>
    have h2 : sid ≠ sid' := Ne.symm hne
    simp [findAtt_append_one, h2]
    cases findAtt db sid' today <;> simp [h2]

lemma markAbsentOne_other (today now teacher sid : ℕ) (db : List AttRecord)
    (sid' : ℕ) (hne : sid' ≠ sid) :
    findAtt (markAbsentOne today now teacher sid db).1 sid' today
      = findAtt db sid' today := by
  unfold markAbsentOne
  cases h : findAtt db sid today with
  | some r =>
    by_cases hr : r.status = true
    · simp [hr, findAtt_updateFirstStatus_other sid today false now sid' today
        (by rintro ⟨h1, _⟩; exact hne h1)]
    · simp [hr]
  | none =>
    have h2 : sid ≠ sid' := Ne.symm hne
    simp [findAtt_append_one, h2]
    cases findAtt db sid' today <;> simp [h2]

lemma markPresentOne_stable (today now teacher sid : ℕ) (db : List AttRecord)
    (h : hasStatus db sid today true) :
    markPresentOne today now teacher sid db = (db, 0) := by
  obtain ⟨r, hf, hs⟩ := h
  simp [markPresentOne, hf, hs]

lemma markAbsentOne_stable (today now teacher sid : ℕ) (db : List AttRecord)
    (h : hasStatus db sid today false) :
    markAbsentOne today now teacher sid db = (db, 0) := by
  obtain ⟨r, hf, hs⟩ := h
  simp [markAbsentOne, hf, hs]

lemma markPresentLoop_preserves_true (today now teacher : ℕ) :
    ∀ (ids : List ℕ) (db : List AttRecord) (sid : ℕ),
      hasStatus db sid today true →
      hasStatus (markPresentLoop today now teacher ids db).1 sid today true := by
  intro ids
  induction ids with
  | nil => intro db sid h; exact h
  | cons i t ih =>
    intro db sid h
    by_cases hi : i = sid
    · subst hi
      rw [markPresentLoop, markPresentOne_stable today now teacher i db h]
      exact ih db i h
    · rw [markPresentLoop]
      refine ih _ sid ?_
      obtain ⟨r, hf, hs⟩ := h
      exact ⟨r, by rw [markPresentOne_other today now teacher i db sid
        (fun he => hi he.symm)]; exact hf, hs⟩

lemma markAbsentLoop_preserves_away (today now teacher : ℕ) :
    ∀ (ids : List ℕ) (db : List AttRecord) (sid : ℕ) (b : Bool),
      sid ∉ ids →
      hasStatus db sid today b →
      hasStatus (markAbsentLoop today now teacher ids db).1 sid today b := by
  intro ids
  induction ids with
  | nil => intro db sid b _ h; exact h
  | cons i t ih =>
    intro db sid b hnm h
    rw [markAbsentLoop]
    refine ih _ sid b (fun hm => hnm (List.mem_cons_of_mem i hm)) ?_
    obtain ⟨r, hf, hs⟩ := h
    exact ⟨r, by rw [markAbsentOne_other today now teacher i db sid
      (fun he => hnm (he ▸ List.mem_cons_self i t))]; exact hf, hs⟩

lemma markAbsentLoop_establishes (today now teacher : ℕ) :
    ∀ (ids : List ℕ) (db : List AttRecord) (sid : ℕ),
      sid ∈ ids →
      hasStatus (markAbsentLoop today now teacher ids db).1 sid today false := by
  intro ids
  induction ids with
  | nil => intro db sid h; cases h
  | cons i t ih =>
    intro db sid h
    rw [markAbsentLoop]
    rcases List.mem_cons.mp h with rfl | hmem
    · by_cases ht : sid ∈ t
      · exact ih _ sid ht
      · refine markAbsentLoop_preserves_away today now teacher t _ sid false ht ?_
        exact markAbsentOne_hasStatus today now teacher sid db
    · exact ih _ sid hmem

lemma markPresentLoop_establishes (today now teacher : ℕ) :
    ∀ (ids : List ℕ) (db : List AttRecord) (sid : ℕ),
      sid ∈ ids →
      hasStatus (markPresentLoop today now teacher ids db).1 sid today true := by
  intro ids
  induction ids with
  | nil => intro db sid h; cases h
  | cons i t ih =>
    intro db sid h
    rw [markPresentLoop]
    rcases List.mem_cons.mp h with rfl | hmem
    · exact markPresentLoop_preserves_true today now teacher t _ sid
        (markPresentOne_hasStatus today now teacher sid db)
    · exact ih _ sid hmem

lemma markPresentLoop_identity (today now teacher : ℕ) :
    ∀ (ids : List ℕ) (db : List AttRecord),
      (∀ sid ∈ ids, hasStatus db sid today true) →
      markPresentLoop today now teacher ids db = (db, 0) := by
  intro ids
  induction ids with
  | nil => intro db _; rfl
  | cons i t ih =>
    intro db h
    rw [markPresentLoop, markPresentOne_stable today now teacher i db
      (h i (List.mem_cons_self i t))]
    rw [ih db (fun sid hs => h sid (List.mem_cons_of_mem i hs))]
    rfl

lemma markAbsentLoop_identity (today now teacher : ℕ) :
    ∀ (ids : List ℕ) (db : List AttRecord),
      (∀ sid ∈ ids, hasStatus db sid today false) →
      markAbsentLoop today now teacher ids db = (db, 0) := by
  intro ids
  induction ids with
  | nil => intro db _; rfl
  | cons i t ih =>
    intro db h
    rw [markAbsentLoop, markAbsentOne_stable today now teacher i db
      (h i (List.mem_cons_self i t))]
    rw [ih db (fun sid hs => h sid (List.mem_cons_of_mem i hs))]
    rfl

/-- **C4** — reconciliation is idempotent: re-running it with the same
`present`/`absent` id sets for the same day on the already-reconciled
table performs zero present-writes and zero absent-writes (no record
creations, no status updates), and leaves every attendance record
unchanged.  The second run may even happen at a different timestamp and
be marked by a different teacher; disjointness of the two id sets is
exactly how the source constructs them (images.py:214-215). -/
theorem reconcile_idempotent (present absent : List ℕ)
    (today now1 now2 teacher1 teacher2 : ℕ) (db : List AttRecord)
    (hdisj : ∀ x ∈ present, x ∉ absent) :
    reconcile present absent today now2 teacher2
        (reconcile present absent today now1 teacher1 db).db
      = ⟨(reconcile present absent today now1 teacher1 db).db, 0, 0⟩ := by
  set db2 := (reconcile present absent today now1 teacher1 db).db with hdb2
  have hpres : ∀ sid ∈ present, hasStatus db2 sid today true := by
    intro sid hs
    rw [hdb2]
    show hasStatus (markAbsentLoop today now1 teacher1 absent
      (markPresentLoop today now1 teacher1 present db).1).1 sid today true
    exact markAbsentLoop_preserves_away today now1 teacher1 absent _ sid true
      (hdisj sid hs)
      (markPresentLoop_establishes today now1 teacher1 present db sid hs)
  have habs : ∀ sid ∈ absent, hasStatus db2 sid today false := by
    intro sid hs
    rw [hdb2]
    exact markAbsentLoop_establishes today now1 teacher1 absent _ sid hs
  unfold reconcile
  simp only [markPresentLoop_identity today now2 teacher2 present db2 hpres,
    markAbsentLoop_identity today now2 teacher2 absent db2 habs]

/-- Witness for C4: present `[1]`, absent `[2, 3]`, starting from a table
that already holds an absent record for student 2 on day 0. -/
theorem reconcile_idempotent_witness :
    reconcile [1] [2, 3] 0 8 9
        (reconcile [1] [2, 3] 0 6 7 [⟨2, 0, true, 4, 5⟩]).db
      = ⟨(reconcile [1] [2, 3] 0 6 7 [⟨2, 0, true, 4, 5⟩]).db, 0, 0⟩ :=
  reconcile_idempotent [1] [2, 3] 0 6 8 7 9 [⟨2, 0, true, 4, 5⟩] (by decide)

-- ## Theorems: error handling of the comparison and detection boundary

/-- **C10** — `compare_faces` never lets an exception escape: for every
pair of inputs, `None` included, it returns a `(boolean, score)` pair, and
whenever the `try` body raises (undecodable serialized text, mismatched
vector lengths) or an input is `None`, the returned pair is `(False, 0.0)`.
A comparison that returns `(False, 0.0)` leaves the running best of the
matching loop unchanged (`0.0 > best_similarity` is false since
`best_similarity` starts at `0.0`), so that face/student pair is skipped
and the pass continues over the remaining pairs. -/
theorem compare_faces_failure_returns_pair (simf : Emb → Emb → ℚ) (t : ℚ)
    (e1 e2 : Option EmbJson)
    (hfail : e1 = none ∨ e2 = none
      ∨ ∃ er, compare_faces_core simf e1 e2 t = .error er) :
    compare_faces simf e1 e2 t = (false, 0)
    ∧ ∀ (f : Face) (st : BestState) (s : Student) (v : Emb),
        0 ≤ st.best_similarity →
        json_to_embedding s.face_embedding = .ok (some v) →
        compare_faces simf (some (.jlist f.embedding)) (some (.jlist v)) 0
          = (false, 0) →
        bestStep simf f st s = .ok st := by
  constructor
  · rcases hfail with rfl | rfl | ⟨er, h⟩
    · rcases e2 with _ | (v | (_ | v)) <;> rfl
    · rcases e1 with _ | (v | (_ | v)) <;> rfl
    · unfold compare_faces
      rw [h]
  · intro f st s v h0 hdec hcmp
    have hsim : simOf simf f s = .ok 0 := by
      simp [simOf, hdec, bind, Except.bind, Option.map, hcmp, pure, Except.pure]
    rw [bestStep, hsim]
    show (if (0 : ℚ) > st.best_similarity then _ else _) = _
    rw [if_neg (not_lt.mpr h0)]
    rfl

/-- Witness for C10: undecodable stored text on one side; and a dimension
mismatch inside the loop leaves the loop state at its initial value. -/
theorem compare_faces_failure_returns_pair_witness :
    compare_faces dotQ (some (.jtext none)) (some (.jlist [1])) 0.6
      = (false, 0)
    ∧ bestStep dotQ ⟨[1], [], 0⟩ ⟨none, 0⟩ ⟨7, "S", "r", some (.jlist [1, 2])⟩
      = .ok ⟨none, 0⟩ :=
  have h := compare_faces_failure_returns_pair dotQ 0.6 (some (.jtext none))
    (some (.jlist [1])) (Or.inr (Or.inr ⟨.jsonDecode, rfl⟩))
  ⟨h.1, h.2 ⟨[1], [], 0⟩ ⟨none, 0⟩ ⟨7, "S", "r", some (.jlist [1, 2])⟩ [1, 2]
    le_rfl rfl rfl⟩

/-- **C7** — a model-loading failure in `detect_all_faces` is a raised
error, distinguishable (by the `error` field of the results, `some` vs
`none`) from the normal empty result on a valid zero-face image; in that
failure case the upload flow still records the upload while the attendance
table is untouched and nobody is marked present or absent. -/
theorem detection_unavailable_outcome (simf : Emb → Emb → ℚ)
    (ts : List Student) (msg : String) (today now teacher : ℕ)
    (db : List AttRecord) :
    detect_all_faces (.unavailable msg) = .error (.unavailable msg)
    ∧ detect_all_faces (.faces []) = .ok []
    ∧ uploadFaceRecognition simf ts (detect_all_faces (.unavailable msg))
        today now teacher db
      = ⟨⟨0, 0, 0, 0, [],
          some ("Face recognition model failed to load: " ++ msg)⟩,
          db, [], [], true⟩
    ∧ uploadFaceRecognition simf ts (detect_all_faces (.faces []))
        today now teacher db
      = ⟨⟨0, 0, 0, 0, [], none⟩, db, [], [], true⟩ :=
  ⟨rfl, rfl, rfl, rfl⟩

/-- **C2, counterexample** — the claim says zero detected faces mark every
roster student absent.  With a roster consisting of student 1 (who has a
stored embedding) and zero detected faces, the roster ids are `[1]`, yet
`absent_ids` is empty and no attendance record is written at all: the
whole matching/marking block sits under `if len(detected_faces) > 0`
(images.py:145) and is skipped. -/
theorem zero_faces_roster_not_marked_absent :
    ((List.filter (fun s => s.face_embedding.isSome)
        ([⟨1, "S1", "r1", some (.jlist [1])⟩] : List Student)).map
          fun s => s.id) = [1]
    ∧ (uploadFaceRecognition dotQ [⟨1, "S1", "r1", some (.jlist [1])⟩]
        (.ok []) 0 0 9 []).absent_ids = []
    ∧ (uploadFaceRecognition dotQ [⟨1, "S1", "r1", some (.jlist [1])⟩]
        (.ok []) 0 0 9 []).db = [] :=
  ⟨rfl, rfl, rfl⟩

/-- **C2, amended** — zero detected faces produce an empty match list and
an empty present set, and *no* attendance change at all: absent marking is
skipped along with everything else, for every roster and every prior
table state. -/
theorem zero_faces_no_attendance_change (simf : Emb → Emb → ℚ)
    (ts : List Student) (today now teacher : ℕ) (db : List AttRecord) :
    uploadFaceRecognition simf ts (.ok []) today now teacher db
      = ⟨⟨0, 0, 0, 0, [], none⟩, db, [], [], true⟩ :=
  rfl

-- ## Structure of the per-face best-match loop

lemma bestStep_ok_cases (simf : Emb → Emb → ℚ) (f : Face) (st : BestState)
    (s : Student) (st' : BestState) (h : bestStep simf f st s = .ok st') :
    st' = st ∨ ∃ sim, simOf simf f s = .ok sim ∧ st.best_similarity < sim
      ∧ st' = ⟨some (mkBestMatch f s sim, s), sim⟩ := by
  unfold bestStep at h
  cases hs : simOf simf f s with
  | error e =>
    rw [hs] at h
    simp [bind, Except.bind] at h
  | ok sim =>
    rw [hs] at h
    by_cases hlt : sim > st.best_similarity
    · right
      refine ⟨sim, rfl, hlt, ?_⟩
      simp [bind, Except.bind, hlt, pure, Except.pure] at h
      exact h.symm
    · left
      simp [bind, Except.bind, hlt, pure, Except.pure] at h
      exact h.symm

lemma bestForAux_consistent (simf : Emb → Emb → ℚ) (f : Face) :
    ∀ (l : List Student) (st st' : BestState),
      bestForAux simf f st l = .ok st' →
      (∀ m s, st.best = some (m, s) → m = mkBestMatch f s st.best_similarity) →
      ∀ m s, st'.best = some (m, s) → m = mkBestMatch f s st'.best_similarity := by
  intro l
  induction l with
  | nil =>
    intro st st' h hp
    simp only [bestForAux, Except.ok.injEq] at h
    subst h
    exact hp
  | cons a t ih =>
    intro st st' h hp
    simp only [bestForAux] at h
    cases hb : bestStep simf f st a with
    | error e => rw [hb] at h; simp at h
    | ok st1 =>
      rw [hb] at h
      rcases bestStep_ok_cases simf f st a st1 hb with rfl | ⟨sim, hsim, hlt, rfl⟩
      · exact ih _ st' h hp
      · refine ih _ st' h ?_
        intro m s hms
        have hpair : (mkBestMatch f a sim, a) = (m, s) := by simpa using hms
        cases hpair
        rfl

lemma bestForAux_member (simf : Emb → Emb → ℚ) (f : Face) :
    ∀ (l : List Student) (st st' : BestState),
      bestForAux simf f st l = .ok st' →
      ∀ m s, st'.best = some (m, s) → st.best = some (m, s) ∨ s ∈ l := by
  intro l
  induction l with
  | nil =>
    intro st st' h m s hms
    simp only [bestForAux, Except.ok.injEq] at h
    subst h
    exact Or.inl hms
  | cons a t ih =>
    intro st st' h m s hms
    simp only [bestForAux] at h
    cases hb : bestStep simf f st a with
    | error e => rw [hb] at h; simp at h
    | ok st1 =>
      rw [hb] at h
      rcases ih st1 st' h m s hms with h1 | h1
      · rcases bestStep_ok_cases simf f st a st1 hb with rfl | ⟨sim, hsim, hlt, rfl⟩
        · exact Or.inl h1
        · right
          have hpair : (mkBestMatch f a sim, a) = (m, s) := by simpa using h1
          cases hpair
          exact List.mem_cons_self a t
      · exact Or.inr (List.mem_cons_of_mem a h1)

lemma bestFor_some (simf : Emb → Emb → ℚ) (students : List Student) (f : Face)
    (st' : BestState) (h : bestFor simf students f = .ok st')
    (m : MatchResult) (s : Student) (hb : st'.best = some (m, s)) :
    s ∈ students ∧ m = mkBestMatch f s st'.best_similarity := by
  unfold bestFor at h
  constructor
  · rcases bestForAux_member simf f students ⟨none, 0⟩ st' h m s hb with h1 | h1
    · simp at h1
    · exact h1
  · exact bestForAux_consistent simf f students ⟨none, 0⟩ st' h
      (by intro m s hms; simp at hms) m s hb

/-- **C5** — no face-to-student bijection is enforced: when two detected
faces each best-match the same roster student with similarity above the
threshold, *both* produce a `best_match` entry referencing that student
(two entries in the match list), while `matched_students` — a set —
contains that student's id exactly once. -/
theorem same_student_two_faces (simf : Emb → Emb → ℚ) (students : List Student)
    (f1 f2 : Face) (m1 m2 : MatchResult) (s : Student) (q1 q2 : ℚ)
    (h1 : bestFor simf students f1 = .ok ⟨some (m1, s), q1⟩)
    (h2 : bestFor simf students f2 = .ok ⟨some (m2, s), q2⟩)
    (ht1 : q1 ≥ mkRat 6 10) (ht2 : q2 ≥ mkRat 6 10) :
    matchFaces simf students [f1, f2] ⟨[], [], 0⟩
      = .ok ⟨[s.id], [m1, m2], 2⟩
    ∧ m1.student_id = s.id ∧ m2.student_id = s.id
    ∧ List.count s.id [s.id] = 1 := by
  have hm1 := (bestFor_some simf students f1 ⟨some (m1, s), q1⟩ h1 m1 s rfl).2
  have hm2 := (bestFor_some simf students f2 ⟨some (m2, s), q2⟩ h2 m2 s rfl).2
  refine ⟨?_, by rw [hm1]; rfl, by rw [hm2]; rfl, by simp⟩
  have e1 : applyBest ⟨[], [], 0⟩ ⟨some (m1, s), q1⟩ = ⟨[s.id], [m1], 1⟩ := by
    simp [applyBest, ht1, addToSet]
  have e2 : applyBest ⟨[s.id], [m1], 1⟩ ⟨some (m2, s), q2⟩
      = ⟨[s.id], [m1, m2], 2⟩ := by
    simp [applyBest, ht2, addToSet]
  simp only [matchFaces, h1, e1, h2, e2]

/-- A similarity kernel for concrete runs: a pure lookup on the face side
(no rational arithmetic, so that the kernel can evaluate it). -/
def simTwoFaces (a _b : Emb) : ℚ :=
  if a = [9] then mkRat 9 10 else if a = [17] then mkRat 17 20 else 0

/-- Witness for C5: the spec's scenario — one roster student, two detected
faces scoring 0.9 and 0.85 against them. -/
theorem same_student_two_faces_witness :
    matchFaces simTwoFaces [⟨1, "S1", "r1", some (.jlist [1])⟩]
        [⟨[9], [0, 0, 10, 10], 0⟩, ⟨[17], [5, 5, 15, 15], 1⟩]
        ⟨[], [], 0⟩
      = .ok ⟨[(⟨1, "S1", "r1", some (.jlist [1])⟩ : Student).id],
          [⟨0, 1, "S1", "r1", mkRat 9 10, [0, 0, 10, 10]⟩,
           ⟨1, 1, "S1", "r1", mkRat 17 20, [5, 5, 15, 15]⟩], 2⟩
    ∧ (⟨0, 1, "S1", "r1", mkRat 9 10, [0, 0, 10, 10]⟩ : MatchResult).student_id
        = (⟨1, "S1", "r1", some (.jlist [1])⟩ : Student).id
    ∧ (⟨1, 1, "S1", "r1", mkRat 17 20, [5, 5, 15, 15]⟩ : MatchResult).student_id
        = (⟨1, "S1", "r1", some (.jlist [1])⟩ : Student).id
    ∧ List.count (⟨1, "S1", "r1", some (.jlist [1])⟩ : Student).id
        [(⟨1, "S1", "r1", some (.jlist [1])⟩ : Student).id] = 1 :=
  same_student_two_faces simTwoFaces [⟨1, "S1", "r1", some (.jlist [1])⟩]
    ⟨[9], [0, 0, 10, 10], 0⟩ ⟨[17], [5, 5, 15, 15], 1⟩
    ⟨0, 1, "S1", "r1", mkRat 9 10, [0, 0, 10, 10]⟩
    ⟨1, 1, "S1", "r1", mkRat 17 20, [5, 5, 15, 15]⟩
    ⟨1, "S1", "r1", some (.jlist [1])⟩ (mkRat 9 10) (mkRat 17 20)
    rfl rfl (by decide) (by decide)

-- ## The running maximum selects the first maximal roster entry (C3)

lemma foldl_max_init_le (g : Student → ℚ) :
    ∀ (l : List Student) (b : ℚ), b ≤ l.foldl (fun acc s => max acc (g s)) b := by
  intro l
  induction l with
  | nil => intro b; exact le_refl b
  | cons a t ih =>
    intro b
    exact le_trans (le_max_left b (g a)) (ih (max b (g a)))

lemma foldl_max_mem_le (g : Student → ℚ) :
    ∀ (l : List Student) (b : ℚ) (s : Student), s ∈ l →
      g s ≤ l.foldl (fun acc s => max acc (g s)) b := by
  intro l
  induction l with
  | nil => intro b s h; cases h
  | cons a t ih =>
    intro b s h
    rcases List.mem_cons.mp h with rfl | hm
    · exact le_trans (le_max_right b (g s)) (foldl_max_init_le g t (max b (g s)))
    · exact ih (max b (g a)) s hm

lemma bestForAux_argmax (simf : Emb → Emb → ℚ) (f : Face) (g : Student → ℚ) :
    ∀ (l : List Student), (∀ s ∈ l, simOf simf f s = .ok (g s)) →
      ∀ (st0 : BestState),
      ∃ st, bestForAux simf f st0 l = .ok st
        ∧ st.best_similarity = l.foldl (fun b s => max b (g s)) st0.best_similarity
        ∧ ((∀ s ∈ l, g s ≤ st0.best_similarity) → st = st0)
        ∧ ((¬ ∀ s ∈ l, g s ≤ st0.best_similarity) →
            ∃ l1 s l2, l = l1 ++ s :: l2
              ∧ st.best = some (mkBestMatch f s (g s), s)
              ∧ g s = st.best_similarity
              ∧ st0.best_similarity < g s
              ∧ ∀ y ∈ l1, g y < g s) := by
  intro l
  induction l with
  | nil =>
    intro _ st0
    exact ⟨st0, rfl, rfl, fun _ => rfl, fun h => absurd (by simp) h⟩
  | cons a t ih =>
    intro hg st0
    have ha : simOf simf f a = .ok (g a) := hg a (List.mem_cons_self a t)
    have hgt : ∀ s ∈ t, simOf simf f s = .ok (g s) :=
      fun s hs => hg s (List.mem_cons_of_mem a hs)
    by_cases hlt : st0.best_similarity < g a
    · have hstep : bestStep simf f st0 a
          = .ok ⟨some (mkBestMatch f a (g a), a), g a⟩ := by
        unfold bestStep
        rw [ha]
        simp [bind, Except.bind, pure, Except.pure, hlt]
      obtain ⟨st, hrun, hfold, hunch, hch⟩ :=
        ih hgt ⟨some (mkBestMatch f a (g a), a), g a⟩
      refine ⟨st, ?_, ?_, ?_, ?_⟩
      · simp only [bestForAux, hstep]
        exact hrun
      · have hmax : max st0.best_similarity (g a) = g a :=
          max_eq_right (le_of_lt hlt)
        simp only [List.foldl_cons, hmax]
        exact hfold
      · intro hall
        exact absurd (hall a (List.mem_cons_self a t)) (not_le.mpr hlt)
      · intro _
        by_cases hta : ∀ s ∈ t, g s ≤ g a
        · have hst : st = ⟨some (mkBestMatch f a (g a), a), g a⟩ := hunch hta
          refine ⟨[], a, t, rfl, ?_, ?_, hlt, by intro y hy; cases hy⟩
          · rw [hst]
          · rw [hst]
        · obtain ⟨l1, s, l2, hteq, hbest, hgs, hlt1, hprev⟩ := hch hta
          refine ⟨a :: l1, s, l2, by rw [hteq]; rfl, hbest, hgs,
            lt_trans hlt hlt1, ?_⟩
          intro y hy
          rcases List.mem_cons.mp hy with rfl | hy1
          · exact hlt1
          · exact hprev y hy1
    · have hle : g a ≤ st0.best_similarity := not_lt.mp hlt
      have hstep : bestStep simf f st0 a = .ok st0 := by
        unfold bestStep
        rw [ha]
        simp [bind, Except.bind, pure, Except.pure, hlt]
      obtain ⟨st, hrun, hfold, hunch, hch⟩ := ih hgt st0
      refine ⟨st, ?_, ?_, ?_, ?_⟩
      · simp only [bestForAux, hstep]
        exact hrun
      · have hmax : max st0.best_similarity (g a) = st0.best_similarity :=
          max_eq_left hle
        simp only [List.foldl_cons, hmax]
        exact hfold
      · intro hall
        exact hunch (fun s hs => hall s (List.mem_cons_of_mem a hs))
      · intro hnall
        have hnt : ¬ ∀ s ∈ t, g s ≤ st0.best_similarity := by
          intro hall
          refine hnall (fun s hs => ?_)
          rcases List.mem_cons.mp hs with rfl | h1
          · exact hle
          · exact hall s h1
        obtain ⟨l1, s, l2, hteq, hbest, hgs, hlt1, hprev⟩ := hch hnt
        refine ⟨a :: l1, s, l2, by rw [hteq]; rfl, hbest, hgs, hlt1, ?_⟩
        intro y hy
        rcases List.mem_cons.mp hy with rfl | hy1
        · exact lt_of_le_of_lt hle hlt1
        · exact hprev y hy1

/-- **C3** — for each detected face, the inner loop selects the roster
entry of maximum similarity, and ties are broken by roster iteration
order: the winner's similarity is the running maximum (`foldl max` from
the initial `0.0`), every roster entry scores at most that, and the winner
is the *first* entry attaining it — every entry before it scores strictly
less, because the running maximum is updated only on a strictly greater
similarity (`>`, never `>=`).  No winner is selected iff no entry scores
above the initial `0.0`. -/
theorem best_match_first_maximum (simf : Emb → Emb → ℚ) (f : Face)
    (students : List Student) (g : Student → ℚ)
    (hg : ∀ s ∈ students, simOf simf f s = .ok (g s)) :
    ∃ st, bestFor simf students f = .ok st
      ∧ st.best_similarity = students.foldl (fun b s => max b (g s)) 0
      ∧ (∀ s ∈ students, g s ≤ st.best_similarity)
      ∧ (st.best = none ↔ ∀ s ∈ students, g s ≤ 0)
      ∧ ∀ m s, st.best = some (m, s) →
          ∃ l1 l2, students = l1 ++ s :: l2
            ∧ m = mkBestMatch f s (g s)
            ∧ g s = st.best_similarity
            ∧ 0 < g s
            ∧ ∀ y ∈ l1, g y < g s := by
  obtain ⟨st, hrun, hfold, hunch, hch⟩ :=
    bestForAux_argmax simf f g students hg ⟨none, 0⟩
  refine ⟨st, hrun, hfold, ?_, ?_, ?_⟩
  · intro s hs
    rw [hfold]
    exact foldl_max_mem_le g students 0 s hs
  · constructor
    · intro hnone
      by_contra hnall
      obtain ⟨l1, s, l2, _, hbest, _, _, _⟩ := hch hnall
      rw [hnone] at hbest
      cases hbest
    · intro hall
      rw [hunch hall]
  · intro m s hb
    have hnall : ¬ ∀ s ∈ students, g s ≤ 0 := by
      intro hall
      rw [hunch hall] at hb
      cases hb
    obtain ⟨l1, s', l2, heq, hbest, hgs, hpos, hprev⟩ := hch hnall
    rw [hb] at hbest
    have hpair : (m, s) = (mkBestMatch f s' (g s'), s') :=
      Option.some.inj hbest
    cases hpair
    exact ⟨l1, l2, heq, rfl, hgs, hpos, hprev⟩

/-- A similarity kernel for the C3 witness: a pure lookup on the roster
side (no rational arithmetic). -/
def simFirstMax (_a b : Emb) : ℚ :=
  if b = [1] then mkRat 9 10 else if b = [2] then mkRat 7 10 else 0

/-- Witness for C3: a face compared against two roster entries scoring
0.9 and 0.7. -/
theorem best_match_first_maximum_witness :
    ∃ st : BestState, bestFor simFirstMax
        [⟨1, "A", "r1", some (.jlist [1])⟩, ⟨2, "B", "r2", some (.jlist [2])⟩]
        ⟨[5], [0, 0, 1, 1], 0⟩ = .ok st
      ∧ st.best_similarity
          = List.foldl
              (fun (b : ℚ) (s : Student) =>
                max b (if s.id = 1 then mkRat 9 10 else mkRat 7 10))
              0
              [⟨1, "A", "r1", some (.jlist [1])⟩, ⟨2, "B", "r2", some (.jlist [2])⟩]
      ∧ (∀ s ∈ ([⟨1, "A", "r1", some (.jlist [1])⟩,
            ⟨2, "B", "r2", some (.jlist [2])⟩] : List Student),
          (if s.id = 1 then mkRat 9 10 else mkRat 7 10) ≤ st.best_similarity)
      ∧ (st.best = none ↔ ∀ s ∈ ([⟨1, "A", "r1", some (.jlist [1])⟩,
            ⟨2, "B", "r2", some (.jlist [2])⟩] : List Student),
          (if s.id = 1 then mkRat 9 10 else mkRat 7 10) ≤ 0)
      ∧ ∀ (m : MatchResult) (s : Student), st.best = some (m, s) →
          ∃ l1 l2, ([⟨1, "A", "r1", some (.jlist [1])⟩,
              ⟨2, "B", "r2", some (.jlist [2])⟩] : List Student) = l1 ++ s :: l2
            ∧ m = mkBestMatch ⟨[5], [0, 0, 1, 1], 0⟩ s
                (if s.id = 1 then mkRat 9 10 else mkRat 7 10)
            ∧ (if s.id = 1 then mkRat 9 10 else mkRat 7 10) = st.best_similarity
            ∧ 0 < (if s.id = 1 then mkRat 9 10 else mkRat 7 10)
            ∧ ∀ y ∈ l1, (if y.id = 1 then mkRat 9 10 else mkRat 7 10)
                < (if s.id = 1 then mkRat 9 10 else mkRat 7 10) :=
  best_match_first_maximum simFirstMax ⟨[5], [0, 0, 1, 1], 0⟩
    [⟨1, "A", "r1", some (.jlist [1])⟩, ⟨2, "B", "r2", some (.jlist [2])⟩]
    (fun s => if s.id = 1 then mkRat 9 10 else mkRat 7 10)
    (by intro s hs; fin_cases hs <;> rfl)

-- ## Present/absent partition of the roster (C1)

lemma mem_addToSet {l : List ℕ} {y x : ℕ} :
    x ∈ addToSet l y ↔ x ∈ l ∨ x = y := by
  unfold addToSet
  by_cases h : y ∈ l
  · rw [if_pos h]
    constructor
    · exact Or.inl
    · rintro (h1 | rfl)
      · exact h1
      · exact h
  · rw [if_neg h]
    simp

lemma matchFaces_matched_mem (simf : Emb → Emb → ℚ) (students : List Student) :
    ∀ (faces : List Face) (acc acc' : MatchAccum),
      matchFaces simf students faces acc = .ok acc' →
      ∀ x ∈ acc'.matched_students,
        x ∈ acc.matched_students ∨ x ∈ students.map fun s => s.id := by
  intro faces
  induction faces with
  | nil =>
    intro acc acc' h x hx
    simp only [matchFaces, Except.ok.injEq] at h
    subst h
    exact Or.inl hx
  | cons f t ih =>
    intro acc acc' h x hx
    simp only [matchFaces] at h
    cases hb : bestFor simf students f with
    | error e => rw [hb] at h; simp at h
    | ok st =>
      rw [hb] at h
      rcases ih (applyBest acc st) acc' h x hx with h1 | h1
      · unfold applyBest at h1
        cases hbest : st.best with
        | none => rw [hbest] at h1; exact Or.inl h1
        | some p =>
          obtain ⟨m, s⟩ := p
          rw [hbest] at h1
          dsimp only at h1
          by_cases ht : st.best_similarity ≥ mkRat 6 10
          · rw [if_pos ht] at h1
            rcases mem_addToSet.mp h1 with h2 | rfl
            · exact Or.inl h2
            · right
              have hs := (bestFor_some simf students f st hb m s hbest).1
              exact List.mem_map.mpr ⟨s, hs, rfl⟩
          · rw [if_neg ht] at h1
            exact Or.inl h1
      · exact Or.inr h1

/-- **C1** — for every roster (the uploading teacher's students that have
a stored face embedding) and every non-empty list of detected faces, once
the matching pass completes, the ids marked present and the ids marked
absent partition the roster ids: their union is exactly the roster ids and
their intersection is empty. -/
theorem present_absent_partition (simf : Emb → Emb → ℚ) (ts : List Student)
    (faces : List Face) (today now teacher : ℕ) (db : List AttRecord)
    (acc : MatchAccum) (hne : faces ≠ [])
    (hok : matchFaces simf (ts.filter fun s => s.face_embedding.isSome) faces
        ⟨[], [], 0⟩ = .ok acc) :
    (∀ x, (x ∈ (uploadFaceRecognition simf ts (.ok faces) today now
            teacher db).present_ids
        ∨ x ∈ (uploadFaceRecognition simf ts (.ok faces) today now
            teacher db).absent_ids)
      ↔ x ∈ (ts.filter fun s => s.face_embedding.isSome).map fun s => s.id)
    ∧ ∀ x, ¬ (x ∈ (uploadFaceRecognition simf ts (.ok faces) today now
            teacher db).present_ids
        ∧ x ∈ (uploadFaceRecognition simf ts (.ok faces) today now
            teacher db).absent_ids) := by
  have hfl : faces.length > 0 := List.length_pos.mpr hne
  by_cases hemp : (ts.filter fun s => s.face_embedding.isSome).isEmpty
  · have hnil : (ts.filter fun s => s.face_embedding.isSome) = [] :=
      List.isEmpty_iff.mp hemp
    have ho : uploadFaceRecognition simf ts (.ok faces) today now teacher db
        = ⟨⟨faces.length, 0, 0, 0, [], none⟩, db, [], [], true⟩ := by
      unfold uploadFaceRecognition
      simp [handleDetect, hfl, hemp]
    rw [ho]
    constructor
    · intro x
      simp [hnil]
    · intro x
      simp
  · have ho : uploadFaceRecognition simf ts (.ok faces) today now teacher db
        = ⟨⟨faces.length, acc.students_matched,
              (reconcile acc.matched_students
                (((ts.filter fun s => s.face_embedding.isSome).map
                    fun s => s.id).filter
                  fun sid => ¬ sid ∈ acc.matched_students)
                today now teacher db).present_writes
              + (reconcile acc.matched_students
                (((ts.filter fun s => s.face_embedding.isSome).map
                    fun s => s.id).filter
                  fun sid => ¬ sid ∈ acc.matched_students)
                today now teacher db).absent_writes,
              (reconcile acc.matched_students
                (((ts.filter fun s => s.face_embedding.isSome).map
                    fun s => s.id).filter
                  fun sid => ¬ sid ∈ acc.matched_students)
                today now teacher db).absent_writes,
              acc.matchList, none⟩,
            (reconcile acc.matched_students
              (((ts.filter fun s => s.face_embedding.isSome).map
                  fun s => s.id).filter
                fun sid => ¬ sid ∈ acc.matched_students)
              today now teacher db).db,
            acc.matched_students,
            ((ts.filter fun s => s.face_embedding.isSome).map
                fun s => s.id).filter
              fun sid => ¬ sid ∈ acc.matched_students,
            true⟩ := by
      unfold uploadFaceRecognition
      simp [handleDetect, hfl, hemp, hok]
    rw [ho]
    constructor
    · intro x
      constructor
      · rintro (hx | hx)
        · rcases matchFaces_matched_mem simf
            (ts.filter fun s => s.face_embedding.isSome) faces
            ⟨[], [], 0⟩ acc hok x hx with h1 | h1
          · simp at h1
          · exact h1
        · exact List.mem_of_mem_filter hx
      · intro hx
        by_cases hm : x ∈ acc.matched_students
        · exact Or.inl hm
        · refine Or.inr (List.mem_filter.mpr ⟨hx, ?_⟩)
          simpa using hm
    · rintro x ⟨h1, h2⟩
      have h3 := List.of_mem_filter h2
      simp at h3
      exact h3 h1

/-- A constant similarity kernel for the C1 witness. -/
def simPartition (_a _b : Emb) : ℚ := mkRat 9 10

/-- Witness for C1: one roster student with an embedding, one detected
face matching them. -/
theorem present_absent_partition_witness :
    (∀ x, (x ∈ (uploadFaceRecognition simPartition
            [⟨1, "S1", "r1", some (.jlist [1])⟩]
            (.ok [⟨[9], [0, 0, 1, 1], 0⟩]) 0 0 9 []).present_ids
        ∨ x ∈ (uploadFaceRecognition simPartition
            [⟨1, "S1", "r1", some (.jlist [1])⟩]
            (.ok [⟨[9], [0, 0, 1, 1], 0⟩]) 0 0 9 []).absent_ids)
      ↔ x ∈ (([⟨1, "S1", "r1", some (.jlist [1])⟩] : List Student).filter
          fun s => s.face_embedding.isSome).map fun s => s.id)
    ∧ ∀ x, ¬ (x ∈ (uploadFaceRecognition simPartition
            [⟨1, "S1", "r1", some (.jlist [1])⟩]
            (.ok [⟨[9], [0, 0, 1, 1], 0⟩]) 0 0 9 []).present_ids
        ∧ x ∈ (uploadFaceRecognition simPartition
            [⟨1, "S1", "r1", some (.jlist [1])⟩]
            (.ok [⟨[9], [0, 0, 1, 1], 0⟩]) 0 0 9 []).absent_ids) :=
  present_absent_partition simPartition [⟨1, "S1", "r1", some (.jlist [1])⟩]
    [⟨[9], [0, 0, 1, 1], 0⟩] 0 0 9 []
    ⟨[1], [⟨0, 1, "S1", "r1", mkRat 9 10, [0, 0, 1, 1]⟩], 1⟩
    (List.cons_ne_nil _ _) rfl
